import Mathlib

/-!
Verification of the inbox-automation expense pipeline
(`src/index.ts`, `schema.sql`): a Cloudflare Worker that parses an inbound
email, records it in a `processed_emails` ledger, extracts text from a PDF
attachment or the message body (redacting configured PII literals), validates
the JSON reply of the model against a Zod schema, inserts an `expenses` row and
finally marks the ledger entry processed.

The TypeScript is shallowly embedded: JavaScript string primitives
(`String.prototype.replace`, `replaceAll`, `split`) are modelled on
`List Char`, the D1 store as an explicit record of rows with the constraints of the schema, and each workflow step as a pure function threading the store
state.  External collaborators (postal-mime, unpdf, the model endpoint, the
Workflows runtime) enter as inputs or as their documented semantics.
-/

namespace InboxAutomation

instance {ε α : Type} [DecidableEq ε] [DecidableEq α] : DecidableEq (Except ε α) := fun x y =>
  match x, y with
  | .ok a, .ok b => decidable_of_iff (a = b) (by simp)
  | .error a, .error b => decidable_of_iff (a = b) (by simp)
  | .ok _, .error _ => isFalse (by intro h; cases h)
  | .error _, .ok _ => isFalse (by intro h; cases h)

/-! ### JavaScript string primitives, on `List Char`

`leadsWith pat s` is true when `pat` occurs at the start of `s`. -/

def leadsWith : List Char → List Char → Bool
  | [], _ => true
  | _ :: _, [] => false
  | p :: ps, c :: cs => p == c && leadsWith ps cs

/-- JavaScript `s.replace(pat, rep)` with a string pattern: only the first
occurrence of `pat` is replaced; with an empty pattern, `rep` is inserted at
the start. -/
def replaceFirstL (pat rep : List Char) : List Char → List Char
  | [] => if pat.isEmpty then rep else []
  | c :: rest =>
    if leadsWith pat (c :: rest) then rep ++ List.drop pat.length (c :: rest)
    else c :: replaceFirstL pat rep rest

/-- Left-to-right scan of `replaceAll`, structurally recursive on a fuel
argument; every scanning step consumes at least one character, so fuel equal
to the input length (supplied by `replaceAllL`) never runs out. -/
def replaceAllAux (pat rep : List Char) : Nat → List Char → List Char
  | _, [] => if pat.isEmpty then rep else []
  | 0, s => s
  | fuel + 1, c :: rest =>
    if pat.isEmpty then rep ++ c :: replaceAllAux pat rep fuel rest
    else if leadsWith pat (c :: rest) then
      rep ++ replaceAllAux pat rep fuel (List.drop (pat.length - 1) rest)
    else c :: replaceAllAux pat rep fuel rest

/-- JavaScript `s.replaceAll(pat, rep)`: every non-overlapping occurrence of
`pat`, scanned left to right, is replaced; an empty pattern inserts `rep` at
every position. -/
def replaceAllL (pat rep s : List Char) : List Char :=
  replaceAllAux pat rep s.length s

/-- Whether `pat` occurs as a contiguous substring. -/
def occursInL (pat : List Char) : List Char → Bool
  | [] => pat.isEmpty
  | c :: rest => leadsWith pat (c :: rest) || occursInL pat rest

def jsReplace (s pat rep : String) : String :=
  String.mk (replaceFirstL pat.data rep.data s.data)

def jsReplaceAll (s pat rep : String) : String :=
  String.mk (replaceAllL pat.data rep.data s.data)

def occursIn (pat s : String) : Bool :=
  occursInL pat.data s.data

/-- JavaScript / Zod `.toUpperCase()` (characterwise ASCII upcasing). -/
def jsToUpperCase (s : String) : String := String.mk (s.data.map Char.toUpper)

/-- SQLite `COLLATE NOCASE` folds ASCII case; modelled by comparing
characterwise-lowercased strings. -/
def jsToLowerCase (s : String) : String := String.mk (s.data.map Char.toLower)

/-! ### JavaScript split-on-dash and the date reformatting of
`insertExpenseRecord` (`const [day, month, year] = expenseDate.split(dash)`;
`formattedDate = year-month-day`). -/

/-- JavaScript split on a dash (single-character separator). -/
def splitDash : List Char → List (List Char)
  | [] => [[]]
  | c :: rest =>
    if c == '-' then [] :: splitDash rest
    else
      match splitDash rest with
      | [] => [[c]]
      | p :: ps => (c :: p) :: ps

/-- Destructure the first three dash-separated parts and emit them in
reverse order joined by dashes — exactly the destructuring
`[day, month, year] = split(dash)` of the source followed by the template
`${year}-${month}-${day}`.  For inputs with fewer than three parts the source
would interpolate `undefined`; that branch is unreachable for validated dates
and modelled as the identity. -/
def swapDashParts (l : List Char) : List Char :=
  match splitDash l with
  | d :: m :: y :: _ => y ++ '-' :: (m ++ '-' :: d)
  | _ => l

/-- The Zod regex of `ExpenseSchema.expenseDate`:
`^\d{2}-\d{2}-\d{4}$` (exactly ten characters: two digits, a dash, two
digits, a dash, four digits). -/
def ddmmyyyyL : List Char → Bool
  | a :: b :: s1 :: c :: d :: s2 :: e :: f :: g :: k :: rest =>
    rest.isEmpty && a.isDigit && b.isDigit && s1 == '-' && c.isDigit &&
      d.isDigit && s2 == '-' && e.isDigit && f.isDigit && g.isDigit && k.isDigit
  | _ => false

def matchesDDMMYYYY (s : String) : Bool := ddmmyyyyL s.data

/-- The reformatting `DD-MM-YYYY → YYYY-MM-DD` performed before the
`expenses` insert (src/index.ts, `insertExpenseRecord`). -/
def formatDateForStorage (s : String) : String := String.mk (swapDashParts s.data)

/-- The inverse reformatting `YYYY-MM-DD → DD-MM-YYYY`: split on dashes and
reassemble the three parts in reverse order (the same component swap). -/
def storageDateToDDMMYYYY (s : String) : String := String.mk (swapDashParts s.data)

/-! ### Data model

`ParsedEmail` mirrors `ParsedEmailSchema`, the Zod view of the postal-mime
output used by the workflow.  The MIME parser and the `unpdf` text extractor
are external collaborators, so an attachment carries `contentText`, the text
`extractText(getDocumentProxy(content))` would produce from its bytes. -/

structure Attachment where
  filename : String
  mimeType : String
  contentText : String
deriving DecidableEq

structure ParsedEmail where
  messageId : String
  subject : String
  fromAddress : Option String
  text : Option String
  html : Option String
  attachments : List Attachment
deriving DecidableEq

/-- The configured worker secrets used for PII redaction. -/
structure EnvConfig where
  YOUR_NAME : String
  YOUR_EMAIL : String
  YOUR_ADDRESS : String
  YOUR_POSTAL_CODE : String

/-- The redaction chain of the PDF-attachment branch (src/index.ts line 96):
four chained `.replace` calls — JavaScript `replace` with a string pattern
substitutes only the FIRST occurrence. -/
def redactPdfText (env : EnvConfig) (s : String) : String :=
  jsReplace
    (jsReplace
      (jsReplace
        (jsReplace s env.YOUR_NAME "Payee Name")
        env.YOUR_EMAIL "Payee Email")
      env.YOUR_ADDRESS "Payee Address")
    env.YOUR_POSTAL_CODE "Payee Postal Code"

/-- The redaction chain of the body branch (src/index.ts line 103): four
chained `.replaceAll` calls, substituting every occurrence. -/
def redactBodyText (env : EnvConfig) (s : String) : String :=
  jsReplaceAll
    (jsReplaceAll
      (jsReplaceAll
        (jsReplaceAll s env.YOUR_NAME "Payee Name")
        env.YOUR_EMAIL "Payee Email")
      env.YOUR_ADDRESS "Payee Address")
    env.YOUR_POSTAL_CODE "Payee Postal Code"

/-- The `for (const attachment of emailData.attachments)` loop: starting from
`contentForAi` empty, the first attachment with MIME type `application/pdf`
sets `contentForAi` to its redacted text and `break`s; non-PDF attachments
are skipped, and if no PDF is found `contentForAi` stays empty. -/
def pdfLoop (env : EnvConfig) : List Attachment → String
  | [] => ""
  | a :: rest =>
    if a.mimeType == "application/pdf" then redactPdfText env a.contentText
    else pdfLoop env rest

/-- JavaScript truthiness of an optional string: `undefined` and the empty
string are falsy. -/
def jsTruthy : Option String → Bool
  | none => false
  | some s => !(s == "")

/-- JavaScript `a || b` on optional strings. -/
def jsOr (a b : Option String) : Option String :=
  if jsTruthy a then a else b

structure ExtractedContent where
  contentForAi : String
  type : String
deriving DecidableEq

/-- Step 3, the `extract text for AI` step (src/index.ts lines 88–107).  Note the
`return` of the attachment-typed record sits inside the
`attachments.length > 0` block but OUTSIDE the PDF check, so any email with
attachments yields `type = attachment` (possibly with empty content) and
never reaches the body fallback. -/
def extractTextForAI (env : EnvConfig) (emailData : ParsedEmail) : ExtractedContent :=
  if 0 < emailData.attachments.length then
    { contentForAi := pdfLoop env emailData.attachments, type := "attachment" }
  else if jsTruthy emailData.text || jsTruthy emailData.html then
    { contentForAi :=
        (jsOr (emailData.text.map (redactBodyText env))
          (jsOr (emailData.html.map (redactBodyText env)) (some ""))).getD "",
      type := "body" }
  else
    { contentForAi := "", type := "none" }

/-! ### The Zod `ExpenseSchema` validator

Raw model output, with each of the six schema fields possibly absent.
(Other JSON type mismatches also fail Zod parsing; the claims under
verification only exercise presence/absence and the string checks.) -/

structure RawExpense where
  vendor : Option String
  expenseDate : Option String
  amountValue : Option Int
  currencyCode : Option String
  category : Option String
  description : Option String
deriving DecidableEq

structure ExpenseFields where
  vendor : String
  expenseDate : String
  amountValue : Int
  currencyCode : String
  category : String
  description : Option String
deriving DecidableEq

inductive ZodIssue where
  | missing (field : String)
  | invalidFormat (field : String) (message : String)
deriving DecidableEq

/-- The issue list `ExpenseSchema.parse` raises, in field-declaration order:
`vendor: z.string()`, `expenseDate: z.string().regex(DD-MM-YYYY)`,
`amountValue: z.number()`, `currencyCode: z.string().length(3).toUpperCase()`,
`category: z.string()` (no enum!), `description: z.string().optional()`
(absence allowed, no default). -/
def expenseIssues (raw : RawExpense) : List ZodIssue :=
  (match raw.vendor with
    | none => [ZodIssue.missing "vendor"]
    | some _ => []) ++
  (match raw.expenseDate with
    | none => [ZodIssue.missing "expenseDate"]
    | some d =>
      if matchesDDMMYYYY d then []
      else [ZodIssue.invalidFormat "expenseDate" "Date must be in DD-MM-YYYY format"]) ++
  (match raw.amountValue with
    | none => [ZodIssue.missing "amountValue"]
    | some _ => []) ++
  (match raw.currencyCode with
    | none => [ZodIssue.missing "currencyCode"]
    | some c =>
      if c.length == 3 then []
      else [ZodIssue.invalidFormat "currencyCode" "String must contain exactly 3 characters"]) ++
  (match raw.category with
    | none => [ZodIssue.missing "category"]
    | some _ => [])

/-- `ExpenseSchema.parse`: succeeds exactly when no issue arises; the
`currencyCode` transform `.toUpperCase()` is applied to the output, and
`description` passes through unchanged (possibly absent).  The fallback arm
is unreachable: an empty issue list forces every required field present. -/
def expenseParse (raw : RawExpense) : Except (List ZodIssue) ExpenseFields :=
  match expenseIssues raw with
  | [] =>
    match raw.vendor, raw.expenseDate, raw.amountValue, raw.currencyCode, raw.category with
    | some v, some d, some a, some c, some cat =>
      .ok { vendor := v, expenseDate := d, amountValue := a,
            currencyCode := jsToUpperCase c, category := cat,
            description := raw.description }
    | _, _, _, _, _ => .error []
  | issues => .error issues

/-- The fixed category list (src/index.ts line 47), also the seed rows of the
`categories` table in schema.sql. -/
def validCategories : List String :=
  ["Meals", "Travel", "Office Supplies", "Software", "Hardware", "Training",
   "Telecom", "Other"]

/-! ### The D1 store (schema.sql) -/

structure LedgerRow where
  id : Nat
  message_id : String
  subject : String
  from_address : String
  status : String
  processed_at : Option Nat
  is_reimbursable : Bool
deriving DecidableEq

/-- The generated `status` column of `expenses`:
`CASE WHEN is_reimbursable = 0 THEN non_reimbursable ELSE pending END`. -/
def expenseStatus (is_reimbursable : Bool) : String :=
  if is_reimbursable then "pending" else "non_reimbursable"

structure ExpenseRow where
  id : Nat
  email_id : Nat
  amount : Int
  currency : String
  description : Option String
  expense_date : String
  category : String
  vendor : String
  is_reimbursable : Bool
  status : String
deriving DecidableEq

structure DB where
  emails : List LedgerRow
  expenses : List ExpenseRow
  nextEmailId : Nat
  nextExpenseId : Nat
deriving DecidableEq

inductive D1Error where
  | uniqueViolation (table col : String)
  | notNullViolation (table col : String)
  | checkViolation (table : String)
  | foreignKeyViolation (table : String)
deriving DecidableEq

/-- The ledger row materialized by the step-2 insert: only the four bound
columns come from the caller, `status` and `processed_at` take their schema
defaults, `id` the next autoincrement value. -/
def insertedLedgerRow (db : DB) (now : Nat) (message_id subject addr : String)
    (is_reimbursable : Bool) : LedgerRow :=
  { id := db.nextEmailId, message_id := message_id, subject := subject,
    from_address := addr, status := "pending", processed_at := some now,
    is_reimbursable := is_reimbursable }

/-- The `INSERT INTO processed_emails (message_id, subject, from_address,
is_reimbursable) VALUES (?, ?, ?, ?)` of step 2, under the schema.sql
constraints: `message_id` UNIQUE, `from_address` NOT NULL, `status` defaults
to `pending`.  `now` stands for `CURRENT_TIMESTAMP` (the `processed_at`
column default).  Returns the new row id (`meta.last_row_id`). -/
def insertProcessedEmail (db : DB) (now : Nat) (message_id subject : String)
    (from_address : Option String) (is_reimbursable : Bool) :
    Except D1Error (DB × Nat) :=
  if db.emails.any (fun r => r.message_id == message_id) then
    .error (.uniqueViolation "processed_emails" "message_id")
  else
    match from_address with
    | none => .error (.notNullViolation "processed_emails" "from_address")
    | some addr =>
      let row := insertedLedgerRow db now message_id subject addr is_reimbursable
      .ok ({ db with emails := row :: db.emails,
                     nextEmailId := db.nextEmailId + 1 }, row.id)

/-- The expense row materialized by the step-5 insert: `is_reimbursable` is
not among the bound columns, so the schema default `0` (false) applies, and
the generated `status` column is computed from it. -/
def insertedExpenseRow (db : DB) (email_id : Nat) (amount : Int)
    (currency : String) (description : Option String)
    (expense_date category vendor : String) : ExpenseRow :=
  { id := db.nextExpenseId, email_id := email_id, amount := amount,
    currency := currency, description := description,
    expense_date := expense_date, category := category, vendor := vendor,
    is_reimbursable := false, status := expenseStatus false }

/-- The `INSERT INTO expenses (email_id, amount, currency, description,
expense_date, category, vendor) VALUES (?, ?, ?, ?, ?, ?, ?)` of step 5.
`is_reimbursable` is omitted from the column list, so the schema default `0`
applies and the generated `status` column evaluates accordingly.  Enforced
constraints: `email_id` FK → `processed_emails.id`, `amount > 0`,
`length(currency) = 3`, `category` FK → `categories.name` (COLLATE NOCASE,
seeded with `validCategories`). -/
def insertExpenseRow (db : DB) (email_id : Nat) (amount : Int)
    (currency : String) (description : Option String)
    (expense_date category vendor : String) : Except D1Error (DB × Nat) :=
  if ¬ db.emails.any (fun r => r.id == email_id) then
    .error (.foreignKeyViolation "expenses")
  else if ¬ (0 < amount) then .error (.checkViolation "expenses")
  else if ¬ (currency.length == 3) then .error (.checkViolation "expenses")
  else if ¬ validCategories.any (fun c => jsToLowerCase c == jsToLowerCase category) then
    .error (.foreignKeyViolation "expenses")
  else
    let row := insertedExpenseRow db email_id amount currency description
      expense_date category vendor
    .ok ({ db with expenses := row :: db.expenses,
                   nextExpenseId := db.nextExpenseId + 1 }, row.id)

structure FinalizeResult where
  success : Bool
  error : Option String
  changes : Option Nat
deriving DecidableEq

/-- Step 6, `finalizeEmailProcessingStatus` (src/index.ts lines 204–221):
with no `emailRecordId` it RETURNS a record of success false and error
`Missing emailRecordId` without throwing; otherwise it runs `UPDATE
processed_emails SET status = processed, processed_at = CURRENT_TIMESTAMP
WHERE id = ?` and returns `{ success: true, changes }`. -/
def finalizeEmailProcessingStatus (db : DB) (now : Nat)
    (emailRecordId : Option Nat) : DB × FinalizeResult :=
  match emailRecordId with
  | none => (db, { success := false, error := some "Missing emailRecordId", changes := none })
  | some rid =>
    let emails := db.emails.map fun r =>
      if r.id == rid then { r with status := "processed", processed_at := some now } else r
    ({ db with emails := emails },
     { success := true, error := none,
       changes := some (db.emails.filter (fun r => r.id == rid)).length })

/-! ### Step failures and the workflow run -/

inductive StepFailure where
  | dbError (e : D1Error)
  | validationError (issues : List ZodIssue)
deriving DecidableEq

inductive RunError where
  | stepFailed (stepName : String) (cause : StepFailure)
deriving DecidableEq

/-- One run of `ExpenseAutomationWorkflow.run`, starting from the validated
postal-mime output `email` (step 1 is the external MIME parse plus
`ParsedEmailSchema.parse`) and with `raw` the reply of the model endpoint to the
step-4 prompt.  Each `step.do` body is deterministic here, so a step that
fails also fails on every retry; a failed step therefore aborts the run with
the error of that step, keeping the store state committed by earlier steps.
Step 4 builds its prompt from `extractTextForAI` and calls the model even
when the extracted content is empty (the source only logs in that case).

Steps 4–6 of the run, after the ledger insert committed `db1` and
produced `emailRecordId`.  Step 4 embeds `content.contentForAi` into the
prompt for the external model (whose reply is `raw`) — the source calls the
model even when the content is empty, merely logging — and validates the
reply with `ExpenseSchema.parse`; step 5 reformats the date and inserts the
expense row; step 6 marks the ledger entry processed. -/
def runSteps456 (now : Nat) (db1 : DB) (emailRecordId : Nat)
    (_content : ExtractedContent) (raw : RawExpense) : DB × Except RunError Unit :=
  match expenseParse raw with
  | .error issues =>
    (db1, .error (.stepFailed "send to AI for expense parsing" (.validationError issues)))
  | .ok aiData =>
    match insertExpenseRow db1 emailRecordId aiData.amountValue
        aiData.currencyCode aiData.description
        (formatDateForStorage aiData.expenseDate) aiData.category
        aiData.vendor with
    | .error e => (db1, .error (.stepFailed "insertExpenseRecord" (.dbError e)))
    | .ok (db2, _expenseId) =>
      let (db3, _fin) := finalizeEmailProcessingStatus db2 now (some emailRecordId)
      (db3, .ok ())

/-- One run of `ExpenseAutomationWorkflow.run`: step 2 inserts the ledger
row (step 1, the external MIME parse plus `ParsedEmailSchema.parse`, yields
`email`); on success steps 3–6 follow via `runSteps456`. -/
def runWorkflow (env : EnvConfig) (now : Nat) (db : DB) (email : ParsedEmail)
    (raw : RawExpense) : DB × Except RunError Unit :=
  match insertProcessedEmail db now email.messageId email.subject
      email.fromAddress false with
  | .error e => (db, .error (.stepFailed "recordInitialEmailProcessing" (.dbError e)))
  | .ok (db1, emailRecordId) =>
    runSteps456 now db1 emailRecordId (extractTextForAI env email) raw

/-- Number of ledger rows carrying a given `message_id`. -/
def countLedger (db : DB) (mid : String) : Nat :=
  (db.emails.filter (fun r => r.message_id == mid)).length

/-! ### The step retry semantics of the Workflows runtime

Cloudflare Workflows retries a failed step up to `retries.limit` times; an
error skips the retry budget only when it is a `NonRetryableError` (imported
from `cloudflare:workflows`).  This repository never constructs one — every
`throw` is a plain `new Error(...)`. -/

inductive JsError where
  | jsError (message : String)
  | nonRetryableError (message : String)
deriving DecidableEq

def isRetryable : JsError → Bool
  | .jsError _ => true
  | .nonRetryableError _ => false

/-- `defaultConfig.retries.limit` (src/index.ts lines 11–17). -/
def defaultRetryLimit : Nat := 1

/-- Outcome and total attempt count of `step.do` for a deterministic step
body: a success takes one attempt; a retryable failure is re-attempted until
the retry budget is spent (1 initial attempt + `limit` retries); a
non-retryable failure stops after the first attempt. -/
def runStepDeterministic (limit : Nat) (body : Except JsError α) :
    Except JsError α × Nat :=
  match body with
  | .ok a => (.ok a, 1)
  | .error e => if isRetryable e then (.error e, 1 + limit) else (.error e, 1)

/-- The guard opening step 5, `insertExpenseRecord` (src/index.ts lines
163–172): a missing (falsy) `emailRecordId` throws a plain
`new Error(...)` carrying the message `Failed to get emailRecordId for
expense insertion.`. -/
def insertExpenseGuard (emailRecordId : Option Nat) : Except JsError Nat :=
  match emailRecordId with
  | none => .error (.jsError "Failed to get emailRecordId for expense insertion.")
  | some rid => .ok rid

/-! ### Concrete sample data used by counterexamples and witnesses -/

def sampleEnv : EnvConfig :=
  { YOUR_NAME := "John Doe", YOUR_EMAIL := "jd@example.com",
    YOUR_ADDRESS := "1 Main Street", YOUR_POSTAL_CODE := "90210" }

def emptyDb : DB := { emails := [], expenses := [], nextEmailId := 1, nextExpenseId := 1 }

/-- An email whose only attachment is a PDF whose extracted text mentions the
configured payee name twice. -/
def pdfEmail : ParsedEmail :=
  { messageId := "m-pdf", subject := "Receipt", fromAddress := some "shop@acme.com",
    text := none, html := none,
    attachments := [{ filename := "receipt.pdf", mimeType := "application/pdf",
                      contentText := "John Doe paid 5 EUR. Bill to John Doe." }] }

/-- The same text arriving in the plain-text body instead. -/
def bodyEmail : ParsedEmail :=
  { messageId := "m-body", subject := "Receipt", fromAddress := some "shop@acme.com",
    text := some "John Doe paid 5 EUR. Bill to John Doe.", html := none,
    attachments := [] }

/-- An email with one non-PDF attachment and a plain-text body. -/
def mixedEmail : ParsedEmail :=
  { messageId := "m-mixed", subject := "Invoice", fromAddress := some "billing@acme.com",
    text := some "Invoice from Acme 42 USD", html := none,
    attachments := [{ filename := "photo.png", mimeType := "image/png", contentText := "" }] }

def sampleEmail : ParsedEmail :=
  { messageId := "msg-001", subject := "Receipt", fromAddress := some "shop@acme.com",
    text := some "Total 12 EUR", html := none, attachments := [] }

/-- A fully valid model reply. -/
def goodRaw : RawExpense :=
  { vendor := some "Acme", expenseDate := some "12-03-2024",
    amountValue := some 12, currencyCode := some "eur",
    category := some "Meals", description := some "Lunch" }

/-- A single pending ledger row with id 5. -/
def oneLedgerRow : LedgerRow :=
  { id := 5, message_id := "m", subject := "s", from_address := "a",
    status := "pending", processed_at := some 1, is_reimbursable := false }

/-- A store holding just that row. -/
def oneRowDb : DB :=
  { emails := [oneLedgerRow], expenses := [], nextEmailId := 6, nextExpenseId := 1 }

/-! ### Helper lemmas -/

lemma isDigit_ne_dash (c : Char) (h : c.isDigit = true) : (c == '-') = false := by
  cases hbe : c == '-' with
  | false => rfl
  | true =>
    have hc : c = '-' := eq_of_beq hbe
    subst hc
    exact absurd h (by decide)

/-- A list passing the `DD-MM-YYYY` regex check is exactly ten characters:
two digits, a dash, two digits, a dash, four digits. -/
lemma ddmmyyyy_shape (l : List Char) (h : ddmmyyyyL l = true) :
    ∃ a b c d e f g k : Char,
      l = [a, b, '-', c, d, '-', e, f, g, k] ∧
      a.isDigit ∧ b.isDigit ∧ c.isDigit ∧ d.isDigit ∧
      e.isDigit ∧ f.isDigit ∧ g.isDigit ∧ k.isDigit := by
  revert h
  cases l with
  | nil => intro h; simp [ddmmyyyyL] at h
  | cons a l => cases l with
    | nil => intro h; simp [ddmmyyyyL] at h
    | cons b l => cases l with
      | nil => intro h; simp [ddmmyyyyL] at h
      | cons s1 l => cases l with
        | nil => intro h; simp [ddmmyyyyL] at h
        | cons c l => cases l with
          | nil => intro h; simp [ddmmyyyyL] at h
          | cons d l => cases l with
            | nil => intro h; simp [ddmmyyyyL] at h
            | cons s2 l => cases l with
              | nil => intro h; simp [ddmmyyyyL] at h
              | cons e l => cases l with
                | nil => intro h; simp [ddmmyyyyL] at h
                | cons f l => cases l with
                  | nil => intro h; simp [ddmmyyyyL] at h
                  | cons g l => cases l with
                    | nil => intro h; simp [ddmmyyyyL] at h
                    | cons k rest =>
                      intro h
                      simp only [ddmmyyyyL, Bool.and_eq_true, beq_iff_eq,
                        List.isEmpty_iff] at h
                      obtain ⟨⟨⟨⟨⟨⟨⟨⟨⟨⟨hrest, ha⟩, hb⟩, hs1⟩, hc⟩, hd⟩, hs2⟩,
                        he⟩, hf⟩, hg⟩, hk⟩ := h
                      subst hrest
                      subst hs1
                      subst hs2
                      exact ⟨a, b, c, d, e, f, g, k, rfl, ha, hb, hc, hd,
                        he, hf, hg, hk⟩

/-- The component swap `[p1, p2, p3] ↦ p3-p2-p1` is an involution on strings
shaped `\d{2}-\d{2}-\d{4}`. -/
lemma swapDashParts_involution (l : List Char) (h : ddmmyyyyL l = true) :
    swapDashParts (swapDashParts l) = l := by
  obtain ⟨a, b, c, d, e, f, g, k, rfl, ha, hb, hc, hd, he, hf, hg, hk⟩ :=
    ddmmyyyy_shape l h
  simp [swapDashParts, splitDash, isDigit_ne_dash _ ha, isDigit_ne_dash _ hb,
    isDigit_ne_dash _ hc, isDigit_ne_dash _ hd, isDigit_ne_dash _ he,
    isDigit_ne_dash _ hf, isDigit_ne_dash _ hg, isDigit_ne_dash _ hk]

lemma replaceAllAux_ne_nil {pat rep : List Char} (fuel : Nat) {s : List Char}
    (hrep : rep ≠ []) (hs : s ≠ []) : replaceAllAux pat rep fuel s ≠ [] := by
  cases fuel with
  | zero =>
    cases s with
    | nil => exact absurd rfl hs
    | cons c t => simp [replaceAllAux]
  | succ fuel =>
    cases s with
    | nil => exact absurd rfl hs
    | cons c t =>
      simp only [replaceAllAux]
      by_cases hp : pat.isEmpty = true
      · simp [hp]
      · by_cases hl : leadsWith pat (c :: t) = true
        · simp [hp, hl, hrep]
        · simp [hp, hl]

lemma string_data_ne_nil {s : String} (hs : s ≠ "") : s.data ≠ [] := by
  intro hd
  exact hs (by rw [show s = String.mk s.data from rfl, hd])

lemma jsReplaceAll_ne_empty {s pat rep : String} (hrep : rep ≠ "") (hs : s ≠ "") :
    jsReplaceAll s pat rep ≠ "" := by
  intro h
  have hdata : replaceAllL pat.data rep.data s.data = [] := congrArg String.data h
  exact replaceAllAux_ne_nil _ (string_data_ne_nil hrep) (string_data_ne_nil hs) hdata

lemma redactBodyText_ne_empty (env : EnvConfig) {s : String} (hs : s ≠ "") :
    redactBodyText env s ≠ "" := by
  unfold redactBodyText
  exact jsReplaceAll_ne_empty (by decide)
    (jsReplaceAll_ne_empty (by decide)
      (jsReplaceAll_ne_empty (by decide)
        (jsReplaceAll_ne_empty (by decide) hs)))

lemma pdfLoop_of_first_pdf (env : EnvConfig) (pre : List Attachment) (a : Attachment)
    (post : List Attachment) (hpre : ∀ b ∈ pre, b.mimeType ≠ "application/pdf")
    (ha : a.mimeType = "application/pdf") :
    pdfLoop env (pre ++ a :: post) = redactPdfText env a.contentText := by
  induction pre with
  | nil => simp [pdfLoop, ha]
  | cons b t ih =>
    have hb : (b.mimeType == "application/pdf") = false :=
      beq_eq_false_iff_ne.mpr (hpre b (List.mem_cons_self b t))
    simpa [pdfLoop, hb] using ih fun x hx => hpre x (List.mem_cons_of_mem _ hx)

lemma pdfLoop_of_no_pdf (env : EnvConfig) (l : List Attachment)
    (h : ∀ b ∈ l, b.mimeType ≠ "application/pdf") : pdfLoop env l = "" := by
  induction l with
  | nil => rfl
  | cons b t ih =>
    have hb : (b.mimeType == "application/pdf") = false :=
      beq_eq_false_iff_ne.mpr (h b (List.mem_cons_self b t))
    simpa [pdfLoop, hb] using ih fun x hx => h x (List.mem_cons_of_mem _ hx)

lemma insertProcessedEmail_ok_shape {db : DB} {now : Nat} {mid subj : String}
    {fa : Option String} {reimb : Bool} {db1 : DB} {rid : Nat}
    (h : insertProcessedEmail db now mid subj fa reimb = .ok (db1, rid)) :
    ∃ addr, fa = some addr ∧
      db1 = { db with
              emails := insertedLedgerRow db now mid subj addr reimb :: db.emails,
              nextEmailId := db.nextEmailId + 1 } ∧
      rid = db.nextEmailId := by
  unfold insertProcessedEmail at h
  split at h
  · simp at h
  · cases fa with
    | none => simp at h
    | some addr =>
      simp only [Except.ok.injEq, Prod.mk.injEq] at h
      exact ⟨addr, rfl, h.1.symm, h.2.symm⟩

lemma insertExpenseRow_ok_shape {db : DB} {e : Nat} {a : Int} {c : String}
    {d : Option String} {dt cat v : String} {db2 : DB} {rid : Nat}
    (h : insertExpenseRow db e a c d dt cat v = .ok (db2, rid)) :
    db2 = { db with
            expenses := insertedExpenseRow db e a c d dt cat v :: db.expenses,
            nextExpenseId := db.nextExpenseId + 1 } ∧
    rid = db.nextExpenseId := by
  unfold insertExpenseRow at h
  split at h
  · simp at h
  · split at h
    · simp at h
    · split at h
      · simp at h
      · split at h
        · simp at h
        · simp only [Except.ok.injEq, Prod.mk.injEq] at h
          exact ⟨h.1.symm, h.2.symm⟩

lemma finalize_emails_map_message_id (db : DB) (now rid : Nat) :
    ((finalizeEmailProcessingStatus db now (some rid)).1.emails.map
      fun r => r.message_id) = db.emails.map fun r => r.message_id := by
  simp only [finalizeEmailProcessingStatus, List.map_map]
  apply List.map_congr_left
  intro r _
  by_cases hc : (r.id == rid) = true <;> simp [hc, Function.comp]

lemma finalize_expenses (db : DB) (now : Nat) (oid : Option Nat) :
    (finalizeEmailProcessingStatus db now oid).1.expenses = db.expenses := by
  cases oid <;> rfl

lemma countLedger_eq_map (db : DB) (mid : String) :
    countLedger db mid =
      ((db.emails.map fun r => r.message_id).filter fun m => m == mid).length := by
  unfold countLedger
  induction db.emails with
  | nil => rfl
  | cons r t ih =>
    by_cases h : (r.message_id == mid) = true <;> simp [List.filter_cons, h, ih]

/-- Steps 4–6 never touch the message ids of existing ledger rows and add at most
one expense row: whatever branch is taken, the ledger message-id column is
preserved and the expense table grows by at most one row. -/
lemma runSteps456_shape (now : Nat) (db1 : DB) (rid : Nat)
    (content : ExtractedContent) (raw : RawExpense) :
    ((runSteps456 now db1 rid content raw).1.emails.map fun r => r.message_id) =
      (db1.emails.map fun r => r.message_id) ∧
    (runSteps456 now db1 rid content raw).1.expenses.length ≤
      db1.expenses.length + 1 := by
  unfold runSteps456
  cases hp : expenseParse raw with
  | error issues => simp
  | ok aiData =>
    cases hie : insertExpenseRow db1 rid aiData.amountValue
        aiData.currencyCode aiData.description
        (formatDateForStorage aiData.expenseDate) aiData.category aiData.vendor with
    | error e => simp [hie]
    | ok p =>
      obtain ⟨db2, eid⟩ := p
      obtain ⟨hdb2, -⟩ := insertExpenseRow_ok_shape hie
      subst hdb2
      simp [hie, finalize_emails_map_message_id, finalize_expenses]

/-- The ledger insert of a fresh messageId succeeds and returns the new row
and its id. -/
lemma insertProcessedEmail_fresh (db : DB) (now : Nat) (email : ParsedEmail)
    (addr : String) (haddr : email.fromAddress = some addr)
    (hfresh : ∀ r ∈ db.emails, r.message_id ≠ email.messageId) :
    insertProcessedEmail db now email.messageId email.subject
      email.fromAddress false =
      .ok ({ db with
             emails := insertedLedgerRow db now email.messageId email.subject
               addr false :: db.emails,
             nextEmailId := db.nextEmailId + 1 }, db.nextEmailId) := by
  have hany : (db.emails.any fun r => r.message_id == email.messageId) = false :=
    List.any_eq_false.mpr fun r hr => by simpa using hfresh r hr
  simp [insertProcessedEmail, insertedLedgerRow, hany, haddr]

/-- A successful first run appends exactly one ledger row — carrying the
messageId of the email — and at most one expense row; the abort points (validation
failure, store rejection of the expense) leave the ledger row in place. -/
lemma runWorkflow_fresh_messageIds (env : EnvConfig) (now : Nat) (db : DB)
    (email : ParsedEmail) (raw : RawExpense) (addr : String)
    (haddr : email.fromAddress = some addr)
    (hfresh : ∀ r ∈ db.emails, r.message_id ≠ email.messageId) :
    ((runWorkflow env now db email raw).1.emails.map fun r => r.message_id) =
      email.messageId :: (db.emails.map fun r => r.message_id) ∧
    (runWorkflow env now db email raw).1.expenses.length ≤ db.expenses.length + 1 := by
  unfold runWorkflow
  rw [insertProcessedEmail_fresh db now email addr haddr hfresh]
  have h := runSteps456_shape now
    { db with
      emails := insertedLedgerRow db now email.messageId email.subject
        addr false :: db.emails,
      nextEmailId := db.nextEmailId + 1 } db.nextEmailId
    (extractTextForAI env email) raw
  refine ⟨?_, ?_⟩
  · rw [h.1]
    simp [insertedLedgerRow]
  · exact h.2

/-- A run whose messageId already appears in the store aborts in step 2 with
the uniqueness violation, leaving the store untouched. -/
lemma runWorkflow_duplicate (env : EnvConfig) (now : Nat) (db : DB)
    (email : ParsedEmail) (raw : RawExpense)
    (hdup : ∃ r ∈ db.emails, r.message_id = email.messageId) :
    runWorkflow env now db email raw =
      (db, .error (.stepFailed "recordInitialEmailProcessing"
        (.dbError (.uniqueViolation "processed_emails" "message_id")))) := by
  have hany : (db.emails.any fun r => r.message_id == email.messageId) = true :=
    List.any_eq_true.mpr (by obtain ⟨r, hr, he⟩ := hdup; exact ⟨r, hr, by simpa using he⟩)
  simp [runWorkflow, insertProcessedEmail, hany]

/-- Whatever branch steps 4–6 take, the resulting ledger table is an image of
`db1.emails` under an update that preserves `is_reimbursable` and leaves rows
whose id differs from `rid` untouched. -/
lemma runSteps456_emails_update (now : Nat) (db1 : DB) (rid : Nat)
    (content : ExtractedContent) (raw : RawExpense) :
    ∃ upd : LedgerRow → LedgerRow,
      (runSteps456 now db1 rid content raw).1.emails = db1.emails.map upd ∧
      (∀ r, (upd r).is_reimbursable = r.is_reimbursable) ∧
      (∀ r, r.id ≠ rid → upd r = r) := by
  unfold runSteps456
  cases hp : expenseParse raw with
  | error issues => exact ⟨id, by simp, fun r => rfl, fun r _ => rfl⟩
  | ok aiData =>
    cases hie : insertExpenseRow db1 rid aiData.amountValue
        aiData.currencyCode aiData.description
        (formatDateForStorage aiData.expenseDate) aiData.category aiData.vendor with
    | error e => exact ⟨id, by simp [hie], fun r => rfl, fun r _ => rfl⟩
    | ok p =>
      obtain ⟨db2, eid⟩ := p
      obtain ⟨hdb2, -⟩ := insertExpenseRow_ok_shape hie
      subst hdb2
      refine ⟨fun r => if r.id == rid then
          { r with status := "processed", processed_at := some now } else r,
        ?_, ?_, ?_⟩
      · simp [hie, finalizeEmailProcessingStatus]
      · intro r
        by_cases hc : (r.id == rid) = true <;> simp [hc]
      · intro r hr
        simp [beq_eq_false_iff_ne.mpr hr]

/-- Whatever branch steps 4–6 take, the expense rows they add all carry
`is_reimbursable = false` and generated status `non_reimbursable`. -/
lemma runSteps456_expenses_new (now : Nat) (db1 : DB) (rid : Nat)
    (content : ExtractedContent) (raw : RawExpense) :
    ∃ tail, (runSteps456 now db1 rid content raw).1.expenses = tail ++ db1.expenses ∧
      ∀ x ∈ tail, x.is_reimbursable = false ∧ x.status = "non_reimbursable" := by
  unfold runSteps456
  cases hp : expenseParse raw with
  | error issues => exact ⟨[], by simp, by simp⟩
  | ok aiData =>
    cases hie : insertExpenseRow db1 rid aiData.amountValue
        aiData.currencyCode aiData.description
        (formatDateForStorage aiData.expenseDate) aiData.category aiData.vendor with
    | error e => exact ⟨[], by simp [hie], by simp⟩
    | ok p =>
      obtain ⟨db2, eid⟩ := p
      obtain ⟨hdb2, -⟩ := insertExpenseRow_ok_shape hie
      subst hdb2
      refine ⟨[insertedExpenseRow db1 rid aiData.amountValue aiData.currencyCode
        aiData.description (formatDateForStorage aiData.expenseDate)
        aiData.category aiData.vendor], ?_, ?_⟩
      · simp [hie, finalize_expenses]
      · intro x hx
        rw [List.mem_singleton] at hx
        subst hx
        exact ⟨rfl, rfl⟩

/-! ### Claims -/

/-- C1 (counterexample): running the pipeline twice with the same messageId
does NOT continue on the second run: the second
`recordInitialEmailProcessing` insert hits the `message_id` uniqueness
constraint and the run aborts with that step failure — the code has no
lookup-the-existing-id path. -/
theorem second_run_aborts_concrete :
    (runWorkflow sampleEnv 101 (runWorkflow sampleEnv 100 emptyDb sampleEmail goodRaw).1
      sampleEmail goodRaw).2 =
    .error (RunError.stepFailed "recordInitialEmailProcessing"
      (StepFailure.dbError (D1Error.uniqueViolation "processed_emails" "message_id"))) := by
  decide

/-- C1 (amended): running the pipeline twice with the same messageId still
yields exactly one EmailLedgerEntry and at most one ExpenseRecord — but only
because the second `recordInitialEmailProcessing` insert fails on the
uniqueness constraint and the run aborts, leaving the store as the first run
left it; the second run does not look up the existing ledger id or
continue. -/
theorem run_twice_one_ledger_and_abort (env : EnvConfig) (now1 now2 : Nat)
    (db : DB) (email : ParsedEmail) (raw1 raw2 : RawExpense) (addr : String)
    (haddr : email.fromAddress = some addr)
    (hfresh : ∀ r ∈ db.emails, r.message_id ≠ email.messageId) :
    countLedger (runWorkflow env now2 (runWorkflow env now1 db email raw1).1 email raw2).1
      email.messageId = 1 ∧
    (runWorkflow env now2 (runWorkflow env now1 db email raw1).1 email raw2).1.expenses.length
      ≤ db.expenses.length + 1 ∧
    runWorkflow env now2 (runWorkflow env now1 db email raw1).1 email raw2 =
      ((runWorkflow env now1 db email raw1).1,
        .error (.stepFailed "recordInitialEmailProcessing"
          (.dbError (.uniqueViolation "processed_emails" "message_id")))) := by
  obtain ⟨hmap, hexp⟩ :=
    runWorkflow_fresh_messageIds env now1 db email raw1 addr haddr hfresh
  have hdup : ∃ r ∈ (runWorkflow env now1 db email raw1).1.emails,
      r.message_id = email.messageId := by
    cases hE : (runWorkflow env now1 db email raw1).1.emails with
    | nil => rw [hE] at hmap; simp at hmap
    | cons r t =>
      rw [hE] at hmap
      simp only [List.map_cons, List.cons.injEq] at hmap
      exact ⟨r, by simp, hmap.1⟩
  have h2 := runWorkflow_duplicate env now2 (runWorkflow env now1 db email raw1).1
    email raw2 hdup
  have h1 : (runWorkflow env now2 (runWorkflow env now1 db email raw1).1 email raw2).1 =
      (runWorkflow env now1 db email raw1).1 := by rw [h2]
  have holds : ((db.emails.map fun r => r.message_id).filter
      fun m => m == email.messageId) = [] :=
    List.filter_eq_nil_iff.mpr fun m hm => by
      obtain ⟨r, hr, rfl⟩ := List.mem_map.1 hm
      simpa using hfresh r hr
  refine ⟨?_, ?_, h2⟩
  · rw [h1, countLedger_eq_map, hmap]
    simp [List.filter_cons, holds]
  · rw [h1]
    exact hexp

/-- C1 (witness for the amended claim), at the concrete sample inputs. -/
theorem run_twice_one_ledger_and_abort_witness :
    countLedger (runWorkflow sampleEnv 101 (runWorkflow sampleEnv 100 emptyDb sampleEmail goodRaw).1
      sampleEmail goodRaw).1 sampleEmail.messageId = 1 :=
  (run_twice_one_ledger_and_abort sampleEnv 100 101 emptyDb sampleEmail goodRaw
    goodRaw "shop@acme.com" rfl (by simp [emptyDb])).1

/-- C2 (code bug): the PDF-attachment branch redacts with JavaScript
`replace`, which substitutes only the FIRST occurrence of each configured
literal, so a PDF text mentioning the payee name twice is sent onward still
containing the name; the body branch, by contrast, uses `replaceAll` and
removes every occurrence. -/
theorem pdf_redaction_leaves_later_occurrences :
    extractTextForAI sampleEnv pdfEmail =
      { contentForAi := "Payee Name paid 5 EUR. Bill to John Doe.", type := "attachment" } ∧
    occursIn sampleEnv.YOUR_NAME (extractTextForAI sampleEnv pdfEmail).contentForAi = true ∧
    extractTextForAI sampleEnv bodyEmail =
      { contentForAi := "Payee Name paid 5 EUR. Bill to Payee Name.", type := "body" } ∧
    occursIn sampleEnv.YOUR_NAME (extractTextForAI sampleEnv bodyEmail).contentForAi = false := by
  decide

/-- C3 (counterexample): an email with one non-PDF attachment and a
plain-text body yields `type = "attachment"` with EMPTY content — the body
fallback claimed by the spec never happens, because the
`return` of the attachment-typed record sits outside the PDF check. -/
theorem non_pdf_attachment_skips_body_fallback :
    extractTextForAI sampleEnv mixedEmail = { contentForAi := "", type := "attachment" } ∧
    mixedEmail.text = some "Invoice from Acme 42 USD" := by
  decide

/-- C3 (amended): the selection policy of `extract text for AI` is: the first
PDF attachment wins (remaining attachments ignored) with source
`attachment`; an email with attachments but NO PDF still reports source
`attachment`, with empty content, and never falls back to the body; only
with no attachments at all does the step use the plain-text body, then the
HTML body (source `body`), and otherwise it returns empty content with
source `none`. -/
theorem extractTextForAI_policy (env : EnvConfig) (email : ParsedEmail) :
    (∀ pre a post, email.attachments = pre ++ a :: post →
      (∀ b ∈ pre, b.mimeType ≠ "application/pdf") →
      a.mimeType = "application/pdf" →
      extractTextForAI env email =
        { contentForAi := redactPdfText env a.contentText, type := "attachment" }) ∧
    (email.attachments ≠ [] →
      (∀ b ∈ email.attachments, b.mimeType ≠ "application/pdf") →
      extractTextForAI env email = { contentForAi := "", type := "attachment" }) ∧
    (email.attachments = [] → ∀ t, email.text = some t → t ≠ "" →
      extractTextForAI env email =
        { contentForAi := redactBodyText env t, type := "body" }) ∧
    (email.attachments = [] → email.text = none → ∀ hs, email.html = some hs → hs ≠ "" →
      extractTextForAI env email =
        { contentForAi := redactBodyText env hs, type := "body" }) ∧
    (email.attachments = [] → jsTruthy email.text = false → jsTruthy email.html = false →
      extractTextForAI env email = { contentForAi := "", type := "none" }) := by
  refine ⟨?_, ?_, ?_, ?_, ?_⟩
  · intro pre a post hatt hpre ha
    have hlen : 0 < email.attachments.length := by rw [hatt]; simp
    unfold extractTextForAI
    rw [if_pos hlen, hatt, pdfLoop_of_first_pdf env pre a post hpre ha]
  · intro hne hnopdf
    have hlen : 0 < email.attachments.length := List.length_pos.mpr hne
    unfold extractTextForAI
    rw [if_pos hlen, pdfLoop_of_no_pdf env _ hnopdf]
  · intro hatt t ht htne
    have hlen : ¬ 0 < email.attachments.length := by simp [hatt]
    have htr : jsTruthy email.text = true := by simp [jsTruthy, ht, htne]
    have hred : jsTruthy (some (redactBodyText env t)) = true := by
      simp [jsTruthy, redactBodyText_ne_empty env htne]
    unfold extractTextForAI
    rw [if_neg hlen, if_pos (by rw [htr]; simp)]
    simp [ht, jsOr, hred]
  · intro hatt htn hs hh hhne
    have hlen : ¬ 0 < email.attachments.length := by simp [hatt]
    have htr : jsTruthy email.html = true := by simp [jsTruthy, hh, hhne]
    have hred : redactBodyText env hs ≠ "" := redactBodyText_ne_empty env hhne
    unfold extractTextForAI
    rw [if_neg hlen, if_pos (by rw [htr]; simp [jsTruthy, htn])]
    simp [htn, hh, jsOr, jsTruthy, hred]
  · intro hatt htf hhf
    have hlen : ¬ 0 < email.attachments.length := by simp [hatt]
    unfold extractTextForAI
    rw [if_neg hlen, if_neg (by simp [htf, hhf])]

/-- C3 (witness for the amended claim): the PDF clause applied to the sample
PDF email. -/
theorem extractTextForAI_policy_witness :
    extractTextForAI sampleEnv pdfEmail =
      { contentForAi := redactPdfText sampleEnv "John Doe paid 5 EUR. Bill to John Doe.",
        type := "attachment" } :=
  (extractTextForAI_policy sampleEnv pdfEmail).1 []
    { filename := "receipt.pdf", mimeType := "application/pdf",
      contentText := "John Doe paid 5 EUR. Bill to John Doe." } [] rfl
    (by simp) rfl

/-- C4 (counterexample): with the sample email and a model reply missing
`currencyCode`, validation fails naming the field and no expense row is
inserted — but the run leaves the ledger entry in status `pending`, not
`failed`: nothing in the code ever writes status `failed`. -/
theorem missing_currency_leaves_pending_concrete :
    ((runWorkflow sampleEnv 100 emptyDb sampleEmail
        { goodRaw with currencyCode := none }).1.emails.map fun r => r.status) =
      ["pending"] ∧
    (runWorkflow sampleEnv 100 emptyDb sampleEmail
      { goodRaw with currencyCode := none }).1.expenses = [] ∧
    (runWorkflow sampleEnv 100 emptyDb sampleEmail
      { goodRaw with currencyCode := none }).2 =
      .error (.stepFailed "send to AI for expense parsing"
        (.validationError [ZodIssue.missing "currencyCode"])) ∧
    "pending" ≠ "failed" := by
  decide

/-- C4 (amended): for every model reply missing `currencyCode` (other fields
arbitrary), validation fails with an issue list naming `currencyCode`, the
run aborts at the `send to AI for expense parsing` step, no expense row is
inserted, and the ledger entry created in step 2 remains in status
`pending` — the run does NOT end with status `failed`. -/
theorem missing_currency_validation_and_run (env : EnvConfig) (now : Nat)
    (db : DB) (email : ParsedEmail) (raw : RawExpense) (addr : String)
    (haddr : email.fromAddress = some addr)
    (hfresh : ∀ r ∈ db.emails, r.message_id ≠ email.messageId)
    (hcc : raw.currencyCode = none) :
    ZodIssue.missing "currencyCode" ∈ expenseIssues raw ∧
    runWorkflow env now db email raw =
      ({ db with
         emails := insertedLedgerRow db now email.messageId email.subject
           addr false :: db.emails,
         nextEmailId := db.nextEmailId + 1 },
       .error (.stepFailed "send to AI for expense parsing"
         (.validationError (expenseIssues raw)))) ∧
    (insertedLedgerRow db now email.messageId email.subject addr false).status
      = "pending" ∧
    (runWorkflow env now db email raw).1.expenses = db.expenses := by
  have hmem : ZodIssue.missing "currencyCode" ∈ expenseIssues raw := by
    simp [expenseIssues, hcc]
  have hparse : expenseParse raw = .error (expenseIssues raw) := by
    cases hIss : expenseIssues raw with
    | nil => rw [hIss] at hmem; exact absurd hmem (List.not_mem_nil _)
    | cons i is => simp [expenseParse, hIss]
  have hrun : runWorkflow env now db email raw =
      ({ db with
         emails := insertedLedgerRow db now email.messageId email.subject
           addr false :: db.emails,
         nextEmailId := db.nextEmailId + 1 },
       .error (.stepFailed "send to AI for expense parsing"
         (.validationError (expenseIssues raw)))) := by
    unfold runWorkflow
    rw [insertProcessedEmail_fresh db now email addr haddr hfresh]
    unfold runSteps456
    rw [hparse]
  exact ⟨hmem, hrun, rfl, by rw [hrun]⟩

/-- C4 (witness for the amended claim): projection of the amended theorem at
the sample inputs. -/
theorem missing_currency_validation_and_run_witness :
    (runWorkflow sampleEnv 100 emptyDb sampleEmail
      { goodRaw with currencyCode := none }).1.expenses = emptyDb.expenses :=
  (missing_currency_validation_and_run sampleEnv 100 emptyDb sampleEmail
    { goodRaw with currencyCode := none } "shop@acme.com" rfl
    (by simp [emptyDb]) rfl).2.2.2

/-- C5 (counterexample): a model reply whose category is `Groceries` — not
one of the eight labels — passes `ExpenseSchema.parse`: the Zod schema types
`category` as a bare `z.string()` with no enum. -/
theorem invalid_category_accepted_concrete :
    expenseParse { goodRaw with category := some "Groceries" } =
      .ok { vendor := "Acme", expenseDate := "12-03-2024", amountValue := 12,
            currencyCode := "EUR", category := "Groceries", description := some "Lunch" } ∧
    "Groceries" ∉ validCategories := by
  decide

/-- C5 (amended): the validator does not check category membership at all —
any string in the `category` field passes and flows through unchanged; the
eight-label enumeration is only supplied to the model inside the
`response_format` json-schema of the request (and the prompt), and reappears as the
`categories` seed of the store. -/
theorem expenseParse_ignores_category_membership (cat : String) :
    expenseParse { vendor := some "Acme", expenseDate := some "12-03-2024",
                   amountValue := some 12, currencyCode := some "EUR",
                   category := some cat, description := some "Lunch" } =
      .ok { vendor := "Acme", expenseDate := "12-03-2024", amountValue := 12,
            currencyCode := "EUR", category := cat, description := some "Lunch" } := rfl

/-- C5 (witness for the amended claim), at a category outside the seed
list. -/
theorem expenseParse_ignores_category_membership_witness :
    expenseParse { vendor := some "Acme", expenseDate := some "12-03-2024",
                   amountValue := some 12, currencyCode := some "EUR",
                   category := some "Utilities", description := some "Lunch" } =
      .ok { vendor := "Acme", expenseDate := "12-03-2024", amountValue := 12,
            currencyCode := "EUR", category := "Utilities", description := some "Lunch" } :=
  expenseParse_ignores_category_membership "Utilities"

/-- C6 (counterexample): a reply with the description field absent passes
validation with `description = none` (JavaScript `undefined`), not the empty
string: `z.string().optional()` applies no default. -/
theorem absent_description_stays_absent_concrete :
    expenseParse { goodRaw with description := none } =
      .ok { vendor := "Acme", expenseDate := "12-03-2024", amountValue := 12,
            currencyCode := "EUR", category := "Meals", description := none } ∧
    (none : Option String) ≠ some "" := by
  decide

/-- C6 (amended): the validator passes `description` through unchanged — an
absent description stays absent (`none`), never defaulted to the empty
string; the empty-string default exists only as an instruction to the model
inside the prompt. -/
theorem expenseParse_description_passthrough (raw : RawExpense)
    (fields : ExpenseFields) (h : expenseParse raw = .ok fields) :
    fields.description = raw.description := by
  cases hIss : expenseIssues raw with
  | nil =>
    simp only [expenseParse, hIss] at h
    split at h
    · simp only [Except.ok.injEq] at h
      rw [← h]
    · simp at h
  | cons i is =>
    simp only [expenseParse, hIss] at h
    simp at h

/-- C6 (witness for the amended claim), at the concrete no-description
reply. -/
theorem expenseParse_description_passthrough_witness :
    ({ vendor := "Acme", expenseDate := "12-03-2024", amountValue := 12,
       currencyCode := "EUR", category := "Meals",
       description := none } : ExpenseFields).description =
      ({ goodRaw with description := none } : RawExpense).description :=
  expenseParse_description_passthrough { goodRaw with description := none }
    { vendor := "Acme", expenseDate := "12-03-2024", amountValue := 12,
      currencyCode := "EUR", category := "Meals", description := none }
    (by decide)

/-- C7 (confirmed): for every expenseDate accepted by the `DD-MM-YYYY`
regex of the validator, the storage reformatting (split on dashes, reassemble as
`YYYY-MM-DD`) is lossless: the inverse reformatting returns the original
string. -/
theorem expenseDate_roundtrip (s : String) (h : matchesDDMMYYYY s = true) :
    storageDateToDDMMYYYY (formatDateForStorage s) = s := by
  have h2 := swapDashParts_involution s.data h
  unfold storageDateToDDMMYYYY formatDateForStorage
  show String.mk (swapDashParts (swapDashParts s.data)) = s
  rw [h2]

/-- C7 (witness), at a concrete validated date. -/
theorem expenseDate_roundtrip_witness :
    matchesDDMMYYYY "12-03-2024" = true ∧
    storageDateToDDMMYYYY (formatDateForStorage "12-03-2024") = "12-03-2024" :=
  ⟨by decide, expenseDate_roundtrip "12-03-2024" (by decide)⟩

/-- C8 (counterexample): when `emailRecordId` is missing, step 5 throws a
plain `Error` — the retryable kind — and under `defaultConfig`
(`retries.limit = 1`) the step runner makes 2 attempts: the failure IS
retried, and is not a distinct non-retryable error class. -/
theorem missing_ledger_id_step_retried_concrete :
    (runStepDeterministic defaultRetryLimit (insertExpenseGuard none)).2 = 2 ∧
    isRetryable (.jsError "Failed to get emailRecordId for expense insertion.") = true := by
  decide

/-- C8 (amended): a missing ledger id makes the `insertExpenseRecord` step
throw a generic `Error`, which the Workflows runtime treats exactly like a
transient failure: for any configured retry limit the step is attempted
`1 + limit` times before the failure surfaces — there is no distinct,
non-retryable MissingPrerequisiteError in the code. -/
theorem missing_ledger_id_plain_error_retried (limit : Nat) :
    runStepDeterministic limit (insertExpenseGuard none) =
      (.error (.jsError "Failed to get emailRecordId for expense insertion."),
        1 + limit) := rfl

/-- C8 (witness for the amended claim), at the default retry limit. -/
theorem missing_ledger_id_plain_error_retried_witness :
    runStepDeterministic defaultRetryLimit (insertExpenseGuard none) =
      (.error (.jsError "Failed to get emailRecordId for expense insertion."), 2) :=
  missing_ledger_id_plain_error_retried 1

/-- C9 (confirmed): `finalizeEmailProcessingStatus` with a missing
`emailRecordId` returns success false with error `Missing emailRecordId`
without throwing and leaves the store unchanged (the
pipeline still completes, since the step only returns this value); with an
id present it returns success and sets every ledger row carrying that id to
status `processed` with `processed_at` the current timestamp. -/
theorem finalize_best_effort (db : DB) (now : Nat) :
    finalizeEmailProcessingStatus db now none =
      (db, { success := false, error := some "Missing emailRecordId", changes := none }) ∧
    ∀ rid : Nat,
      (finalizeEmailProcessingStatus db now (some rid)).2.success = true ∧
      ∀ r ∈ (finalizeEmailProcessingStatus db now (some rid)).1.emails,
        r.id = rid → r.status = "processed" ∧ r.processed_at = some now := by
  refine ⟨rfl, fun rid => ⟨rfl, ?_⟩⟩
  intro r hr hrid
  simp only [finalizeEmailProcessingStatus, List.mem_map] at hr
  obtain ⟨x, hx, rfl⟩ := hr
  by_cases hc : (x.id == rid) = true
  · simp [hc]
  · rw [Bool.not_eq_true] at hc
    rw [if_neg (by simp [hc])] at hrid ⊢
    exact absurd hrid (beq_eq_false_iff_ne.mp hc)

/-- C9 (witness), instantiated at a one-row store. -/
theorem finalize_best_effort_witness :
    finalizeEmailProcessingStatus oneRowDb 42 none =
      (oneRowDb,
       { success := false, error := some "Missing emailRecordId", changes := none }) :=
  (finalize_best_effort oneRowDb 42).1

/-- C10 (confirmed): every ledger row the pipeline creates is inserted with
`is_reimbursable = false` (the step-2 insert binds it to `false`), and every
expense row it creates omits `is_reimbursable`, taking the schema default
`0`, whence the generated status column makes it `non_reimbursable`; the
autoincrement hypothesis says existing row ids are below the next id, as
SQLite guarantees. -/
theorem pipeline_rows_non_reimbursable (env : EnvConfig) (now : Nat) (db : DB)
    (email : ParsedEmail) (raw : RawExpense)
    (hids : ∀ r ∈ db.emails, r.id < db.nextEmailId) :
    (∀ r ∈ (runWorkflow env now db email raw).1.emails,
        r ∉ db.emails → r.is_reimbursable = false) ∧
    (∀ x ∈ (runWorkflow env now db email raw).1.expenses,
        x ∉ db.expenses → x.is_reimbursable = false ∧ x.status = "non_reimbursable") := by
  unfold runWorkflow
  cases hins : insertProcessedEmail db now email.messageId email.subject
      email.fromAddress false with
  | error e =>
    exact ⟨fun r hr hnr => absurd hr hnr, fun x hx hnx => absurd hx hnx⟩
  | ok p =>
    obtain ⟨db1, rid⟩ := p
    obtain ⟨addr, hfa, hdb1, hrid⟩ := insertProcessedEmail_ok_shape hins
    subst hdb1
    subst hrid
    constructor
    · obtain ⟨upd, hupd, hpr, hid⟩ := runSteps456_emails_update now _ db.nextEmailId
        (extractTextForAI env email) raw
      intro r hr hnr
      rw [hupd] at hr
      obtain ⟨x, hx, rfl⟩ := List.mem_map.1 hr
      rcases List.mem_cons.1 hx with hx1 | hx2
      · subst hx1
        rw [hpr]
        rfl
      · have hne : x.id ≠ db.nextEmailId := Nat.ne_of_lt (hids x hx2)
        rw [hid x hne] at hnr ⊢
        exact absurd hx2 hnr
    · obtain ⟨tail, htail, hprop⟩ := runSteps456_expenses_new now _ db.nextEmailId
        (extractTextForAI env email) raw
      intro x hx hnx
      rw [htail] at hx
      rcases List.mem_append.1 hx with hx1 | hx2
      · exact hprop x hx1
      · exact absurd hx2 hnx

/-- C10 (witness), at the concrete sample run. -/
theorem pipeline_rows_non_reimbursable_witness :
    (∀ r ∈ (runWorkflow sampleEnv 100 emptyDb sampleEmail goodRaw).1.emails,
        r ∉ emptyDb.emails → r.is_reimbursable = false) ∧
    (∀ x ∈ (runWorkflow sampleEnv 100 emptyDb sampleEmail goodRaw).1.expenses,
        x ∉ emptyDb.expenses →
          x.is_reimbursable = false ∧ x.status = "non_reimbursable") :=
  pipeline_rows_non_reimbursable sampleEnv 100 emptyDb sampleEmail goodRaw
    (by simp [emptyDb])

end InboxAutomation
